import Mathlib

/-!
Shallow embedding of the cart/checkout/coupon business logic of the
`shop` application (`shop/models.py`, `shop/services.py`).

The Django database is modelled as explicit lists of rows; every service
operation becomes a pure function from a `DB` (plus its arguments) to a
new `DB` and a return value.  Python `Decimal` arithmetic on money is
exact at these magnitudes, so money is modelled by `ℚ`.  Timestamps are
modelled by `Int` (only their ordering matters).  A Django `raise`
becomes `Except.error`; `@transaction.atomic` is modelled by returning
the *original* database when the body errors (rollback).
-/

namespace Shop

abbrev Money := ℚ

/-- Embeds `shop.models.Product` (the fields the services read). -/
structure Product where
  id : Nat
  name : String
  price : Money
  stock : Nat
  deriving Repr, DecidableEq

/-- Embeds `shop.models.InventoryCommitment`. -/
structure InventoryCommitment where
  id : Nat
  productId : Nat
  quantity : Nat
  deriving Repr, DecidableEq

/-- Embeds `shop.models.Coupon.CouponType`. -/
inductive CouponType where
  | percent
  | fixed
  deriving Repr, DecidableEq

/-- Embeds `shop.models.Coupon`. -/
structure Coupon where
  id : Nat
  code : String
  type : CouponType
  value : Money
  active_from : Int
  active_to : Int
  usage_limit : Option Nat
  used_count : Nat
  is_active : Bool
  deriving Repr, DecidableEq

/-- Embeds `shop.models.Cart`.  `session_key` is a `CharField` whose empty
string plays the role of Python falsiness (`blank=True`). -/
structure Cart where
  id : Nat
  user : Option Nat
  session_key : String
  couponId : Option Nat
  deriving Repr, DecidableEq

/-- Embeds `shop.models.CartItem`. -/
structure CartItem where
  id : Nat
  cartId : Nat
  productId : Nat
  quantity : Nat
  unit_price : Money
  deriving Repr, DecidableEq

/-- Embeds `shop.models.Order.Status`. -/
inductive OrderStatus where
  | pending
  | paid
  | shipped
  | completed
  | canceled
  deriving Repr, DecidableEq

/-- Embeds `shop.models.Order`. -/
structure Order where
  id : Nat
  userId : Nat
  status : OrderStatus
  subtotal : Money
  discount : Money
  total : Money
  addressId : Nat
  couponId : Option Nat
  notes : String
  deriving Repr, DecidableEq

/-- Embeds `shop.models.OrderItem`. -/
structure OrderItem where
  id : Nat
  orderId : Nat
  productId : Nat
  quantity : Nat
  unit_price : Money
  deriving Repr, DecidableEq

/-- The database state: one list of rows per table, plus a fresh-id
counter standing for the autoincrement primary keys. -/
structure DB where
  products : List Product
  commitments : List InventoryCommitment
  coupons : List Coupon
  carts : List Cart
  cartItems : List CartItem
  orders : List Order
  orderItems : List OrderItem
  nextId : Nat
  deriving Repr, DecidableEq

/-- A (possibly anonymous) request user, as `CartManager.__init__` sees it. -/
structure UserRef where
  id : Nat
  is_authenticated : Bool
  deriving Repr, DecidableEq

/-- Primary-key lookup in `products`. -/
def productById (db : DB) (pid : Nat) : Option Product :=
  db.products.find? (fun p => p.id == pid)

/-- Primary-key lookup in `coupons`. -/
def couponById (db : DB) (cid : Nat) : Option Coupon :=
  db.coupons.find? (fun c => c.id == cid)

/-- Dereference the cart's coupon foreign key (`self.cart.coupon`). -/
def cartCoupon (db : DB) (cart : Cart) : Option Coupon :=
  match cart.couponId with
  | none => none
  | some cid => couponById db cid

/-- Embeds `cart.items`: the cart item rows belonging to a cart. -/
def cartItemsOf (db : DB) (cartId : Nat) : List CartItem :=
  db.cartItems.filter (fun it => it.cartId == cartId)

/-- Embeds the `CartItem.subtotal` property: `unit_price * quantity`. -/
def CartItem.subtotal (it : CartItem) : Money :=
  it.unit_price * (it.quantity : Money)

/-- Embeds `Cart.subtotal`: `sum(item.subtotal for item in self.items...)`. -/
def cartSubtotal (db : DB) (cartId : Nat) : Money :=
  ((cartItemsOf db cartId).map CartItem.subtotal).sum

/-- Embeds `Product.available_stock`: `stock - sum(item.quantity for item in commitments)`. -/
def Product.available_stock (db : DB) (p : Product) : Int :=
  (p.stock : Int) -
    ((db.commitments.filter (fun c => c.productId == p.id)).map
      (fun c => (c.quantity : Int))).sum

/-- Result record of `CartManager.totals`. -/
structure Totals where
  subtotal : Money
  discount : Money
  total : Money
  deriving Repr, DecidableEq

/-- Embeds `CartManager.totals` (services.py lines 75-85). -/
def totals (db : DB) (cart : Cart) : Totals :=
  let subtotal := cartSubtotal db cart.id
  let discount :=
    match cartCoupon db cart with
    | none => (0 : Money)
    | some c =>
        let d :=
          match c.type with
          | CouponType.percent => subtotal * (c.value / 100)
          | CouponType.fixed => c.value
        min d subtotal
  { subtotal := subtotal, discount := discount, total := subtotal - discount }

/-- Embeds `code__iexact`: case-insensitive string equality (both sides lowered
character by character, as `str.lower()`/`LOWER()` does for ASCII). -/
def strIEq (a b : String) : Bool :=
  a.data.map Char.toLower == b.data.map Char.toLower

/-- The coupon filter of `CartManager.apply_coupon`: active flag, validity
window, and the `.exclude(usage_limit__isnull=False, used_count__gte=F("usage_limit"))`
usage-cap condition. -/
def couponMatches (now : Int) (code : String) (c : Coupon) : Bool :=
  strIEq c.code code && c.is_active && decide (c.active_from ≤ now) &&
    decide (now ≤ c.active_to) &&
    (match c.usage_limit with
     | none => true
     | some lim => decide (c.used_count < lim))

/-- Write the cart row's `coupon` column (`cart.save(update_fields=["coupon", ...])`). -/
def setCartCoupon (db : DB) (cartId : Nat) (cid : Option Nat) : DB :=
  { db with
    carts := db.carts.map (fun c => if c.id == cartId then { c with couponId := cid } else c) }

/-- Embeds `CartManager.apply_coupon` (services.py lines 58-73). -/
def apply_coupon (db : DB) (now : Int) (cart : Cart) (code : String) :
    DB × Option Coupon :=
  match db.coupons.find? (couponMatches now code) with
  | none => (db, none)
  | some c => (setCartCoupon db cart.id (some c.id), some c)

/-- Embeds `if quantity < 1: quantity = 1` (services.py lines 31-32). -/
def clampQty (q : Int) : Nat :=
  if q < 1 then 1 else q.toNat

/-- Embeds `CartManager.add_product` (services.py lines 30-40). -/
def add_product (db : DB) (cart : Cart) (p : Product) (q : Int) :
    DB × CartItem :=
  let qty := clampQty q
  match (cartItemsOf db cart.id).find? (fun it => it.productId == p.id) with
  | some item =>
      let item2 := { item with quantity := item.quantity + qty, unit_price := p.price }
      ({ db with
         cartItems := db.cartItems.map (fun it => if it.id == item.id then item2 else it) },
       item2)
  | none =>
      let item : CartItem :=
        { id := db.nextId, cartId := cart.id, productId := p.id,
          quantity := qty, unit_price := p.price }
      ({ db with cartItems := db.cartItems ++ [item], nextId := db.nextId + 1 }, item)

/-- Embeds `CartManager.update_quantity` (services.py lines 42-53). -/
def update_quantity (db : DB) (cart : Cart) (p : Product) (q : Int) :
    DB × Option CartItem :=
  match (cartItemsOf db cart.id).find? (fun it => it.productId == p.id) with
  | none => (db, none)
  | some item =>
      if q < 1 then
        ({ db with cartItems := db.cartItems.filter (fun it => it.id != item.id) },
         some item)
      else
        let item2 := { item with quantity := q.toNat, unit_price := p.price }
        ({ db with
           cartItems := db.cartItems.map (fun it => if it.id == item.id then item2 else it) },
         some item2)

/-- Embeds `CartManager.remove_product` (services.py lines 55-56). -/
def remove_product (db : DB) (cart : Cart) (p : Product) : DB :=
  { db with
    cartItems := db.cartItems.filter (fun it => !(it.cartId == cart.id && it.productId == p.id)) }

/-- Embeds `self.user = user if user and user.is_authenticated else None`. -/
def effectiveUser (user : Option UserRef) : Option UserRef :=
  match user with
  | some u => if u.is_authenticated then some u else none
  | none => none

/-- Lines 19-21 of services.py: store the session key on the user's cart
when the cart has none yet. -/
def patchSessionKey (db : DB) (cart : Cart) (sk : String) : DB × Cart :=
  if sk ≠ "" ∧ cart.session_key = "" then
    ({ db with
       carts := db.carts.map (fun c => if c.id == cart.id then { c with session_key := sk } else c) },
     { cart with session_key := sk })
  else (db, cart)

/-- Embeds `CartManager.__init__` / `_get_or_create_cart` (services.py lines 11-28).
On the `raise ValueError` path nothing has been written yet, so the
database comes back unchanged. -/
def mkCartManager (db : DB) (user : Option UserRef) (sk : String) :
    DB × Except String Cart :=
  match effectiveUser user with
  | some u =>
      match db.carts.find? (fun c => c.user == some u.id) with
      | some cart =>
          let r := patchSessionKey db cart sk
          (r.1, Except.ok r.2)
      | none =>
          let cart : Cart := { id := db.nextId, user := some u.id, session_key := "", couponId := none }
          let db1 := { db with carts := db.carts ++ [cart], nextId := db.nextId + 1 }
          let r := patchSessionKey db1 cart sk
          (r.1, Except.ok r.2)
  | none =>
      if sk = "" then
        (db, Except.error "Session key is required for anonymous carts")
      else
        match db.carts.find? (fun c => c.session_key == sk && c.user == none) with
        | some cart => (db, Except.ok cart)
        | none =>
            let cart : Cart := { id := db.nextId, user := none, session_key := sk, couponId := none }
            ({ db with carts := db.carts ++ [cart], nextId := db.nextId + 1 }, Except.ok cart)

/-- Overwrite the product row with the given primary key
(`item.product.save(update_fields=["stock", ...])`). -/
def setProductRow (db : DB) (p : Product) : DB :=
  { db with products := db.products.map (fun q => if q.id == p.id then p else q) }

/-- Embeds `cart.items.select_related("product")`: each cart item paired with its
product row, all fetched from the same database snapshot. -/
def selectRelated (db : DB) : List CartItem → Option (List (CartItem × Product))
  | [] => some []
  | it :: rest =>
      match productById db it.productId with
      | none => none
      | some p => (selectRelated db rest).map (fun l => (it, p) :: l)

/-- The stock-check/decrement loop of `checkout_cart` (services.py lines
105-109).  Each iteration checks the fetched (snapshot) stock and writes
back `stock - quantity`. -/
def decrementStocks : List (CartItem × Product) → DB → Except String DB
  | [], db => Except.ok db
  | (it, p) :: rest, db =>
      if p.stock < it.quantity then
        Except.error (p.name ++ " da yetarli zaxira yo'q")
      else
        decrementStocks rest (setProductRow db { p with stock := p.stock - it.quantity })

/-- The `OrderItem` rows accumulated by the loop and inserted by
`OrderItem.objects.bulk_create` (services.py lines 110-119). -/
def buildOrderItems (orderId : Nat) (startId : Nat) :
    List (CartItem × Product) → List OrderItem
  | [] => []
  | (it, p) :: rest =>
      { id := startId, orderId := orderId, productId := p.id,
        quantity := it.quantity, unit_price := it.unit_price } ::
        buildOrderItems orderId (startId + 1) rest

/-- The body of `checkout_cart` (services.py lines 88-123), without the
transaction wrapper. -/
def checkoutBody (db : DB) (cart : Cart) (addressId : Nat) (user : UserRef)
    (notes : String) : Except String (DB × Order) :=
  let m := mkCartManager db (some user) cart.session_key
  match m.2 with
  | Except.error e => Except.error e
  | Except.ok mcart =>
      let db1 := m.1
      let t := totals db1 mcart
      let order : Order :=
        { id := db1.nextId, userId := user.id, status := OrderStatus.pending,
          subtotal := t.subtotal, discount := t.discount, total := t.total,
          addressId := addressId, couponId := cart.couponId, notes := notes }
      let db2 := { db1 with orders := db1.orders ++ [order], nextId := db1.nextId + 1 }
      match selectRelated db2 (cartItemsOf db2 cart.id) with
      | none => Except.error "missing product row"
      | some lines =>
          match decrementStocks lines db2 with
          | Except.error e => Except.error e
          | Except.ok db3 =>
              let newItems := buildOrderItems order.id db3.nextId lines
              let db4 := { db3 with
                           orderItems := db3.orderItems ++ newItems,
                           nextId := db3.nextId + newItems.length }
              let db5 := { db4 with
                           cartItems := db4.cartItems.filter (fun it => it.cartId != cart.id) }
              let db6 := setCartCoupon db5 cart.id none
              Except.ok (db6, order)

/-- Embeds `checkout_cart` with its `@transaction.atomic` wrapper: when the body
raises, the transaction rolls back and the database is unchanged. -/
def checkout_cart (db : DB) (cart : Cart) (addressId : Nat) (user : UserRef)
    (notes : String) : DB × Except String Order :=
  match checkoutBody db cart addressId user notes with
  | Except.error e => (db, Except.error e)
  | Except.ok r => (r.1, Except.ok r.2)

/-- Whether an `Except` result is an error (a raised exception). -/
def isErr {α : Type} : Except String α → Bool
  | Except.error _ => true
  | Except.ok _ => false

/-- Expected product row after a successful checkout of the given cart
items: the product of each item loses that item's quantity of stock,
every other product is untouched. -/
def stockAfter (items : List CartItem) (p : Product) : Product :=
  match items.find? (fun it => it.productId == p.id) with
  | none => p
  | some it => { p with stock := p.stock - it.quantity }

/-- Effect on one product row of replaying the checkout stock writes. -/
def lineStockUpd (lines : List (CartItem × Product)) (q : Product) : Product :=
  match lines.find? (fun l => l.2.id == q.id) with
  | none => q
  | some l => { l.2 with stock := l.2.stock - l.1.quantity }

/-- Replace the contents of the `InventoryCommitment` table. -/
def withComm (db : DB) (l : List InventoryCommitment) : DB :=
  { db with commitments := l }

/-- Number of cart rows owned by a given user. -/
def userCartCount (db : DB) (uid : Nat) : Nat :=
  db.carts.countP (fun c => c.user == some uid)

/-- The order row `checkout_cart` creates when the manager resolves to the
same cart that is being checked out. -/
def orderOf (db : DB) (cart : Cart) (addressId : Nat) (user : UserRef)
    (notes : String) : Order :=
  { id := db.nextId, userId := user.id, status := OrderStatus.pending,
    subtotal := (totals db cart).subtotal, discount := (totals db cart).discount,
    total := (totals db cart).total, addressId := addressId, couponId := cart.couponId,
    notes := notes }

/-- Insert a freshly created order row. -/
def dbWithOrder (db : DB) (o : Order) : DB :=
  { db with orders := db.orders ++ [o], nextId := db.nextId + 1 }

/-- The order row `checkout_cart` creates in general: totals come from the
manager's cart, the coupon from the `cart` argument. -/
def orderMixed (db1 : DB) (mcart cart : Cart) (a : Nat) (user : UserRef) (n : String) : Order :=
  { id := db1.nextId, userId := user.id, status := OrderStatus.pending,
    subtotal := (totals db1 mcart).subtotal, discount := (totals db1 mcart).discount,
    total := (totals db1 mcart).total, addressId := a, couponId := cart.couponId, notes := n }

/-- The tail of a successful checkout after the stock loop: bulk-insert the
order items, delete the cart's items, clear the cart's coupon. -/
def postCheckout (db3 : DB) (cartId oid : Nat) (lines : List (CartItem × Product)) : DB :=
  let newItems := buildOrderItems oid db3.nextId lines
  let db4 := { db3 with
               orderItems := db3.orderItems ++ newItems,
               nextId := db3.nextId + newItems.length }
  let db5 := { db4 with cartItems := db4.cartItems.filter (fun it => it.cartId != cartId) }
  setCartCoupon db5 cartId none

/- Concrete sample data used to instantiate the theorems. -/

def sampleP1 : Product := { id := 1, name := "A", price := 10, stock := 5 }

def sampleP2 : Product := { id := 2, name := "B", price := 4, stock := 1 }

def sampleP3 : Product := { id := 3, name := "C", price := 7, stock := 2 }

def sampleCoupon : Coupon :=
  { id := 7, code := "SAVE10", type := CouponType.percent, value := 10,
    active_from := 0, active_to := 100, usage_limit := some 5, used_count := 0,
    is_active := true }

def sampleCart : Cart := { id := 20, user := some 3, session_key := "sess", couponId := some 7 }

def sampleItem1 : CartItem := { id := 30, cartId := 20, productId := 1, quantity := 2, unit_price := 10 }

def sampleItem2 : CartItem := { id := 31, cartId := 20, productId := 2, quantity := 1, unit_price := 4 }

def sampleUser : UserRef := { id := 3, is_authenticated := true }

def sampleDB : DB :=
  { products := [sampleP1, sampleP2, sampleP3], commitments := [], coupons := [sampleCoupon],
    carts := [sampleCart], cartItems := [sampleItem1, sampleItem2],
    orders := [], orderItems := [], nextId := 100 }

/-- Same database but the second cart item asks for more than the stock. -/
def sampleBadItem : CartItem := { id := 31, cartId := 20, productId := 2, quantity := 3, unit_price := 4 }

def sampleBadDB : DB := { sampleDB with cartItems := [sampleItem1, sampleBadItem] }

/- General lemmas about the embedding. -/

theorem find?_key_self {α : Type} (f : α → Nat) :
    ∀ (l : List α) (a : α), (l.map f).Nodup → a ∈ l →
      l.find? (fun x => f x == f a) = some a := by
  intro l
  induction l with
  | nil => intro a _ h; cases h
  | cons b t ih =>
      intro a hn hm
      rw [List.map_cons, List.nodup_cons] at hn
      rcases List.mem_cons.1 hm with rfl | hm
      · simp [List.find?]
      · have hne : ¬ f b = f a := by
          intro he
          exact hn.1 (he ▸ List.mem_map_of_mem f hm)
        simp only [List.find?]
        rw [show (f b == f a) = false from beq_eq_false_iff_ne.2 hne]
        exact ih a hn.2 hm

theorem productById_id {db : DB} {pid : Nat} {p : Product}
    (h : productById db pid = some p) : p.id = pid := by
  unfold productById at h
  have := List.find?_some h
  simpa using this

theorem productById_mem {db : DB} {pid : Nat} {p : Product}
    (h : productById db pid = some p) : p ∈ db.products :=
  List.mem_of_find?_eq_some h

theorem productById_self {db : DB} {p : Product}
    (hn : (db.products.map Product.id).Nodup) (hm : p ∈ db.products) :
    productById db p.id = some p :=
  find?_key_self Product.id db.products p hn hm

theorem patchSessionKey_own (db : DB) (cart : Cart) :
    patchSessionKey db cart cart.session_key = (db, cart) := by
  unfold patchSessionKey
  rw [if_neg]
  rintro ⟨h1, h2⟩
  exact h1 h2

theorem mkCartManager_self {db : DB} {cart : Cart} {user : UserRef}
    (hauth : user.is_authenticated = true)
    (hfind : db.carts.find? (fun c => c.user == some user.id) = some cart) :
    mkCartManager db (some user) cart.session_key = (db, Except.ok cart) := by
  unfold mkCartManager effectiveUser
  simp only [hauth, if_true, hfind, patchSessionKey_own]

theorem decrementStocks_ok_of :
    ∀ (lines : List (CartItem × Product)) (db : DB),
      (∀ l ∈ lines, l.1.quantity ≤ l.2.stock) →
      ∃ db', decrementStocks lines db = Except.ok db' := by
  intro lines
  induction lines with
  | nil => intro db _; exact ⟨db, rfl⟩
  | cons l rest ih =>
      intro db h
      obtain ⟨it, p⟩ := l
      have h1 := h (it, p) (List.mem_cons_self _ _)
      have hlt : ¬ p.stock < it.quantity := not_lt.2 h1
      simp only [decrementStocks, if_neg hlt]
      exact ih _ (fun x hx => h x (List.mem_cons_of_mem _ hx))

theorem decrementStocks_err_iff :
    ∀ (lines : List (CartItem × Product)) (db : DB),
      (isErr (decrementStocks lines db) = true ↔ ∃ l ∈ lines, l.2.stock < l.1.quantity) := by
  intro lines
  induction lines with
  | nil => intro db; simp [decrementStocks, isErr]
  | cons l rest ih =>
      intro db
      obtain ⟨it, p⟩ := l
      by_cases hlt : p.stock < it.quantity
      · constructor
        · intro _; exact ⟨(it, p), List.mem_cons_self _ _, hlt⟩
        · intro _; simp [decrementStocks, if_pos hlt, isErr]
      · rw [show decrementStocks ((it, p) :: rest) db =
              decrementStocks rest (setProductRow db { p with stock := p.stock - it.quantity })
            from by simp [decrementStocks, if_neg hlt], ih]
        constructor
        · rintro ⟨l, hl, h2⟩
          exact ⟨l, List.mem_cons_of_mem _ hl, h2⟩
        · rintro ⟨l, hl, h2⟩
          rcases List.mem_cons.1 hl with rfl | hl'
          · exact absurd h2 hlt
          · exact ⟨l, hl', h2⟩

theorem decrementStocks_ok_eq :
    ∀ (lines : List (CartItem × Product)) (db db' : DB),
      decrementStocks lines db = Except.ok db' →
      db' = lines.foldl
        (fun d l => setProductRow d { l.2 with stock := l.2.stock - l.1.quantity }) db := by
  intro lines
  induction lines with
  | nil =>
      intro db db' h
      simp only [decrementStocks, Except.ok.injEq] at h
      simpa [List.foldl] using h.symm
  | cons l rest ih =>
      intro db db' h
      obtain ⟨it, p⟩ := l
      by_cases hlt : p.stock < it.quantity
      · simp [decrementStocks, if_pos hlt] at h
      · simp only [decrementStocks, if_neg hlt] at h
        simpa [List.foldl] using ih _ _ h

theorem decrementStocks_frame :
    ∀ (lines : List (CartItem × Product)) (db db' : DB),
      decrementStocks lines db = Except.ok db' →
      db'.commitments = db.commitments ∧ db'.coupons = db.coupons ∧
      db'.carts = db.carts ∧ db'.cartItems = db.cartItems ∧
      db'.orders = db.orders ∧ db'.orderItems = db.orderItems ∧
      db'.nextId = db.nextId := by
  intro lines
  induction lines with
  | nil =>
      intro db db' h
      simp only [decrementStocks, Except.ok.injEq] at h
      subst h
      exact ⟨rfl, rfl, rfl, rfl, rfl, rfl, rfl⟩
  | cons l rest ih =>
      intro db db' h
      obtain ⟨it, p⟩ := l
      by_cases hlt : p.stock < it.quantity
      · simp [decrementStocks, if_pos hlt] at h
      · simp only [decrementStocks, if_neg hlt] at h
        exact ih (setProductRow db { p with stock := p.stock - it.quantity }) db' h

theorem selectRelated_fst {db : DB} :
    ∀ {items : List CartItem} {lines : List (CartItem × Product)},
      selectRelated db items = some lines → lines.map Prod.fst = items := by
  intro items
  induction items with
  | nil =>
      intro lines h
      simp only [selectRelated, Option.some.injEq] at h
      subst h
      rfl
  | cons it rest ih =>
      intro lines h
      simp only [selectRelated] at h
      cases hp : productById db it.productId with
      | none => rw [hp] at h; cases h
      | some p =>
          rw [hp] at h
          rcases Option.map_eq_some'.1 h with ⟨l', hl', rfl⟩
          simp [ih hl']

theorem selectRelated_mem {db : DB} :
    ∀ {items : List CartItem} {lines : List (CartItem × Product)},
      selectRelated db items = some lines →
      ∀ l ∈ lines, productById db l.1.productId = some l.2 := by
  intro items
  induction items with
  | nil =>
      intro lines h
      simp only [selectRelated, Option.some.injEq] at h
      subst h
      intro l hl
      cases hl
  | cons it rest ih =>
      intro lines h
      simp only [selectRelated] at h
      cases hp : productById db it.productId with
      | none => rw [hp] at h; cases h
      | some p =>
          rw [hp] at h
          rcases Option.map_eq_some'.1 h with ⟨l', hl', rfl⟩
          intro l hl
          rcases List.mem_cons.1 hl with rfl | hl2
          · exact hp
          · exact ih hl' l hl2

theorem selectRelated_exists {db : DB} (P : CartItem → Product → Prop) :
    ∀ {items : List CartItem} {lines : List (CartItem × Product)},
      selectRelated db items = some lines →
      ((∃ l ∈ lines, P l.1 l.2) ↔
        ∃ it ∈ items, ∃ p, productById db it.productId = some p ∧ P it p) := by
  intro items
  induction items with
  | nil =>
      intro lines h
      simp only [selectRelated, Option.some.injEq] at h
      subst h
      simp
  | cons it rest ih =>
      intro lines h
      simp only [selectRelated] at h
      cases hp : productById db it.productId with
      | none => rw [hp] at h; cases h
      | some p =>
          rw [hp] at h
          rcases Option.map_eq_some'.1 h with ⟨l', hl', rfl⟩
          constructor
          · rintro ⟨l, hl, hP⟩
            rcases List.mem_cons.1 hl with rfl | hl2
            · exact ⟨it, List.mem_cons_self _ _, p, hp, hP⟩
            · rcases (ih hl').1 ⟨l, hl2, hP⟩ with ⟨it2, hm, p2, hp2, hP2⟩
              exact ⟨it2, List.mem_cons_of_mem _ hm, p2, hp2, hP2⟩
          · rintro ⟨it2, hm, p2, hp2, hP2⟩
            rcases List.mem_cons.1 hm with rfl | hm2
            · rw [hp] at hp2
              injection hp2 with he
              subst he
              exact ⟨(it2, p), List.mem_cons_self _ _, hP2⟩
            · rcases (ih hl').2 ⟨it2, hm2, p2, hp2, hP2⟩ with ⟨l, hl2, hP3⟩
              exact ⟨l, List.mem_cons_of_mem _ hl2, hP3⟩

theorem selectRelated_isSome {db : DB} :
    ∀ {items : List CartItem},
      (∀ it ∈ items, ∃ p, productById db it.productId = some p) →
      ∃ lines, selectRelated db items = some lines := by
  intro items
  induction items with
  | nil => intro _; exact ⟨[], rfl⟩
  | cons it rest ih =>
      intro h
      rcases h it (List.mem_cons_self _ _) with ⟨p, hp⟩
      rcases ih (fun x hx => h x (List.mem_cons_of_mem _ hx)) with ⟨l', hl'⟩
      refine ⟨(it, p) :: l', ?_⟩
      simp [selectRelated, hp, hl']

theorem selectRelated_congr {db1 db2 : DB} (hp : db1.products = db2.products) :
    ∀ (items : List CartItem), selectRelated db1 items = selectRelated db2 items := by
  intro items
  induction items with
  | nil => rfl
  | cons it rest ih =>
      simp only [selectRelated, ih]
      have : productById db1 it.productId = productById db2 it.productId := by
        unfold productById
        rw [hp]
      rw [this]

theorem nat_beq_comm (a b : Nat) : (a == b) = (b == a) := by
  by_cases h : a = b
  · simp [h]
  · simp [h, Ne.symm h]

theorem foldl_setProductRow_products :
    ∀ (lines : List (CartItem × Product)) (db : DB),
      (lines.map (fun l => l.2.id)).Nodup →
      (lines.foldl
        (fun d l => setProductRow d { l.2 with stock := l.2.stock - l.1.quantity }) db).products
        = db.products.map (lineStockUpd lines) := by
  intro lines
  induction lines with
  | nil =>
      intro db _
      have hid : ∀ q ∈ db.products, lineStockUpd [] q = q := by
        intro q _
        simp [lineStockUpd, List.find?]
      rw [List.map_congr_left hid, List.map_id']
      rfl
  | cons l rest ih =>
      intro db hn
      obtain ⟨it, p⟩ := l
      rw [List.map_cons, List.nodup_cons] at hn
      rw [List.foldl_cons, ih _ hn.2]
      show (db.products.map fun q => if q.id == p.id then { p with stock := p.stock - it.quantity } else q).map
          (lineStockUpd rest) = _
      rw [List.map_map]
      apply List.map_congr_left
      intro q _
      simp only [Function.comp]
      by_cases hq : q.id = p.id
      · rw [if_pos (by simp [hq])]
        have hrest : rest.find?
            (fun l => l.2.id == Product.id { p with stock := p.stock - it.quantity }) = none := by
          apply List.find?_eq_none.2
          intro x hx
          simp only
          intro hbeq
          exact hn.1 ((beq_iff_eq.1 hbeq) ▸ List.mem_map_of_mem (fun l => l.2.id) hx)
        have hhead : ((it, p) :: rest).find? (fun l => l.2.id == q.id) = some (it, p) := by
          simp [List.find?, hq]
        unfold lineStockUpd
        rw [hrest, hhead]
      · rw [if_neg (by simp [hq])]
        have hhead : ((it, p) :: rest).find? (fun l => l.2.id == q.id) =
            rest.find? (fun l => l.2.id == q.id) := by
          have : (p.id == q.id) = false := beq_eq_false_iff_ne.2 (fun he => hq he.symm)
          simp [List.find?, this]
        unfold lineStockUpd
        rw [hhead]

theorem lineStockUpd_eq_stockAfter {db : DB} :
    ∀ {items : List CartItem} {lines : List (CartItem × Product)},
      selectRelated db items = some lines →
      (db.products.map Product.id).Nodup →
      ∀ q ∈ db.products, lineStockUpd lines q = stockAfter items q := by
  intro items
  induction items with
  | nil =>
      intro lines h _ q _
      simp only [selectRelated, Option.some.injEq] at h
      subst h
      simp [lineStockUpd, stockAfter, List.find?]
  | cons it rest ih =>
      intro lines h hn q hq
      simp only [selectRelated] at h
      cases hp : productById db it.productId with
      | none => rw [hp] at h; cases h
      | some p =>
          rw [hp] at h
          rcases Option.map_eq_some'.1 h with ⟨l', hl', rfl⟩
          have hpid : p.id = it.productId := productById_id hp
          by_cases hcase : it.productId = q.id
          · have hbp : (p.id == q.id) = true := by simp [hpid, hcase]
            have hbi : (it.productId == q.id) = true := by simp [hcase]
            have hpq : p = q := by
              have h1 : productById db q.id = some q := productById_self hn hq
              have h2 : productById db q.id = some p := by rw [← hcase]; exact hp
              rw [h1] at h2
              injection h2 with he
              exact he.symm
            unfold lineStockUpd stockAfter
            rw [show ((it, p) :: l').find? (fun l => l.2.id == q.id) = some (it, p) by
                  simp [List.find?, hbp]]
            rw [show (it :: rest).find? (fun x => x.productId == q.id) = some it by
                  simp [List.find?, hbi]]
            rw [hpq]
          · have hbp : (p.id == q.id) = false := by
              rw [hpid]; exact beq_eq_false_iff_ne.2 hcase
            have hbi : (it.productId == q.id) = false := beq_eq_false_iff_ne.2 hcase
            unfold lineStockUpd stockAfter
            rw [show ((it, p) :: l').find? (fun l => l.2.id == q.id) =
                  l'.find? (fun l => l.2.id == q.id) by simp [List.find?, hbp]]
            rw [show (it :: rest).find? (fun x => x.productId == q.id) =
                  rest.find? (fun x => x.productId == q.id) by simp [List.find?, hbi]]
            have := ih hl' hn q hq
            unfold lineStockUpd stockAfter at this
            exact this

theorem buildOrderItems_map (oid : Nat) :
    ∀ (lines : List (CartItem × Product)) (sid : Nat),
      (buildOrderItems oid sid lines).map
          (fun oi => (oi.orderId, oi.productId, oi.quantity, oi.unit_price)) =
        lines.map (fun l => (oid, l.2.id, l.1.quantity, l.1.unit_price)) := by
  intro lines
  induction lines with
  | nil => intro sid; rfl
  | cons l rest ih =>
      intro sid
      obtain ⟨it, p⟩ := l
      simp only [buildOrderItems, List.map_cons, ih]

theorem buildOrderItems_mem (oid : Nat) :
    ∀ (lines : List (CartItem × Product)) (sid : Nat) (oi : OrderItem),
      oi ∈ buildOrderItems oid sid lines →
      oi.orderId = oid ∧ ∃ l ∈ lines, oi.productId = l.2.id ∧
        oi.quantity = l.1.quantity ∧ oi.unit_price = l.1.unit_price := by
  intro lines
  induction lines with
  | nil => intro sid oi h; cases h
  | cons l rest ih =>
      intro sid oi h
      obtain ⟨it, p⟩ := l
      rcases List.mem_cons.1 h with rfl | h2
      · exact ⟨rfl, ((it, p)), List.mem_cons_self _ _, rfl, rfl, rfl⟩
      · rcases ih (sid + 1) oi h2 with ⟨h3, l2, hm, h4⟩
        exact ⟨h3, l2, List.mem_cons_of_mem _ hm, h4⟩

theorem cartItemsOf_orders (db : DB) (os : List Order) (n cid : Nat) :
    cartItemsOf { db with orders := os, nextId := n } cid = cartItemsOf db cid := rfl

theorem selectRelated_orders (db : DB) (os : List Order) (n : Nat) (items : List CartItem) :
    selectRelated { db with orders := os, nextId := n } items = selectRelated db items :=
  @selectRelated_congr { db with orders := os, nextId := n } db rfl items

theorem checkout_cart_view {db : DB} {cart : Cart} {user : UserRef}
    (hauth : user.is_authenticated = true)
    (hfind : db.carts.find? (fun c => c.user == some user.id) = some cart)
    (addressId : Nat) (notes : String) {lines : List (CartItem × Product)}
    (hsel : selectRelated db (cartItemsOf db cart.id) = some lines) :
    checkout_cart db cart addressId user notes =
      (let t := totals db cart
       let order : Order :=
         { id := db.nextId, userId := user.id, status := OrderStatus.pending,
           subtotal := t.subtotal, discount := t.discount, total := t.total,
           addressId := addressId, couponId := cart.couponId, notes := notes }
       let db2 : DB := { db with orders := db.orders ++ [order], nextId := db.nextId + 1 }
       match decrementStocks lines db2 with
       | Except.error e => (db, Except.error e)
       | Except.ok db3 =>
           let newItems := buildOrderItems order.id db3.nextId lines
           let db4 : DB := { db3 with
                             orderItems := db3.orderItems ++ newItems,
                             nextId := db3.nextId + newItems.length }
           let db5 : DB := { db4 with
                             cartItems := db4.cartItems.filter (fun it => it.cartId != cart.id) }
           (setCartCoupon db5 cart.id none, Except.ok order)) := by
  unfold checkout_cart checkoutBody
  rw [mkCartManager_self hauth hfind]
  simp only []
  rw [cartItemsOf_orders, selectRelated_orders, hsel]
  cases hdec : decrementStocks lines
      { db with
        orders := db.orders ++
          [{ id := db.nextId, userId := user.id, status := OrderStatus.pending,
             subtotal := (totals db cart).subtotal, discount := (totals db cart).discount,
             total := (totals db cart).total, addressId := addressId, couponId := cart.couponId,
             notes := notes }],
        nextId := db.nextId + 1 } with
  | error e => simp [hdec]
  | ok db3 => simp [hdec]

theorem checkout_cart_steps {db : DB} {cart : Cart} {user : UserRef}
    (hauth : user.is_authenticated = true)
    (hfind : db.carts.find? (fun c => c.user == some user.id) = some cart)
    (addressId : Nat) (notes : String) {lines : List (CartItem × Product)}
    (hsel : selectRelated db (cartItemsOf db cart.id) = some lines) :
    checkout_cart db cart addressId user notes =
      match decrementStocks lines (dbWithOrder db (orderOf db cart addressId user notes)) with
      | Except.error e => (db, Except.error e)
      | Except.ok db3 =>
          (postCheckout db3 cart.id (orderOf db cart addressId user notes).id lines,
           Except.ok (orderOf db cart addressId user notes)) := by
  rw [checkout_cart_view hauth hfind addressId notes hsel]
  simp only [orderOf, dbWithOrder, postCheckout]

theorem couponMatches_iff (now : Int) (code : String) (c : Coupon) :
    couponMatches now code c = true ↔
      (c.code.data.map Char.toLower = code.data.map Char.toLower ∧ c.is_active = true ∧
        c.active_from ≤ now ∧
        now ≤ c.active_to ∧ ∀ lim, c.usage_limit = some lim → c.used_count < lim) := by
  unfold couponMatches strIEq
  cases hu : c.usage_limit with
  | none => simp [Bool.and_eq_true, decide_eq_true_iff, and_assoc]
  | some lim => simp [Bool.and_eq_true, decide_eq_true_iff, and_assoc]

/-- C3: `CartManager.totals` returns the sum of `unit_price * quantity` as
subtotal; discount `0` with no coupon, `subtotal * value/100` (percent) or
`value` (fixed) capped at the subtotal, so `discount ≤ subtotal`; and
`total = subtotal - discount ≥ 0` — in exact decimal (rational) arithmetic,
given that unit prices are nonnegative as enforced by the model validators. -/
theorem totals_correct (db : DB) (cart : Cart)
    (hpos : ∀ it ∈ cartItemsOf db cart.id, 0 ≤ it.unit_price) :
    (totals db cart).subtotal =
        ((cartItemsOf db cart.id).map (fun it => it.unit_price * (it.quantity : Money))).sum ∧
    (cartCoupon db cart = none → (totals db cart).discount = 0) ∧
    (∀ c, cartCoupon db cart = some c → c.type = CouponType.percent →
      (totals db cart).discount =
        min ((totals db cart).subtotal * (c.value / 100)) (totals db cart).subtotal) ∧
    (∀ c, cartCoupon db cart = some c → c.type = CouponType.fixed →
      (totals db cart).discount = min c.value (totals db cart).subtotal) ∧
    (totals db cart).discount ≤ (totals db cart).subtotal ∧
    (totals db cart).total = (totals db cart).subtotal - (totals db cart).discount ∧
    0 ≤ (totals db cart).total := by
  have h0 : 0 ≤ cartSubtotal db cart.id := by
    apply List.sum_nonneg
    intro x hx
    rcases List.mem_map.1 hx with ⟨it, hit, rfl⟩
    exact mul_nonneg (hpos it hit) (Nat.cast_nonneg _)
  have hsub : (totals db cart).subtotal = cartSubtotal db cart.id := rfl
  have hle : (totals db cart).discount ≤ (totals db cart).subtotal := by
    rw [hsub]
    cases hc : cartCoupon db cart with
    | none => simp only [totals, hc]; exact h0
    | some c => simp only [totals, hc]; exact min_le_right _ _
  refine ⟨rfl, ?_, ?_, ?_, hle, rfl, ?_⟩
  · intro hc
    simp only [totals, hc]
  · intro c hc htype
    simp only [totals, hc, htype]
  · intro c hc htype
    simp only [totals, hc, htype]
  · have : (totals db cart).total = (totals db cart).subtotal - (totals db cart).discount := rfl
    rw [this]
    exact sub_nonneg.2 hle

theorem totals_correct_witness :
    (∀ it ∈ cartItemsOf sampleDB sampleCart.id, 0 ≤ it.unit_price) ∧
    (totals sampleDB sampleCart).discount ≤ (totals sampleDB sampleCart).subtotal ∧
    0 ≤ (totals sampleDB sampleCart).total := by
  have hp : ∀ it ∈ cartItemsOf sampleDB sampleCart.id, 0 ≤ it.unit_price := by
    intro it hit
    have he : cartItemsOf sampleDB sampleCart.id = [sampleItem1, sampleItem2] := rfl
    rw [he] at hit
    have h2 : it = sampleItem1 ∨ it = sampleItem2 := by simpa using hit
    rcases h2 with h | h <;> rw [h] <;> norm_num [sampleItem1, sampleItem2]
  have h := totals_correct sampleDB sampleCart hp
  exact ⟨hp, h.2.2.2.2.1, h.2.2.2.2.2.2⟩

/-- C4: `apply_coupon` attaches and returns a coupon iff some coupon row
matches the code case-insensitively, is active, the current time lies in
its validity window, and (with a usage limit set) `used_count < usage_limit`;
otherwise it returns `None` and leaves the whole database unchanged. -/
theorem apply_coupon_correct (db : DB) (now : Int) (cart : Cart) (code : String) :
    ((apply_coupon db now cart code).2.isSome = true ↔
      ∃ c ∈ db.coupons, c.code.data.map Char.toLower = code.data.map Char.toLower ∧
        c.is_active = true ∧
        c.active_from ≤ now ∧ now ≤ c.active_to ∧
        (∀ lim, c.usage_limit = some lim → c.used_count < lim)) ∧
    (∀ c, (apply_coupon db now cart code).2 = some c →
      c ∈ db.coupons ∧ couponMatches now code c = true ∧
      (apply_coupon db now cart code).1.carts =
        db.carts.map (fun ct => if ct.id == cart.id then { ct with couponId := some c.id } else ct) ∧
      (apply_coupon db now cart code).1.products = db.products ∧
      (apply_coupon db now cart code).1.coupons = db.coupons ∧
      (apply_coupon db now cart code).1.cartItems = db.cartItems ∧
      (apply_coupon db now cart code).1.orders = db.orders ∧
      (apply_coupon db now cart code).1.orderItems = db.orderItems) ∧
    ((apply_coupon db now cart code).2 = none → (apply_coupon db now cart code).1 = db) := by
  cases hf : db.coupons.find? (couponMatches now code) with
  | none =>
      refine ⟨?_, ?_, ?_⟩
      · simp only [apply_coupon, hf, Option.isSome_none]
        constructor
        · intro h; cases h
        · rintro ⟨c, hc, hcond⟩
          have hno := List.find?_eq_none.1 hf c hc
          exact absurd ((couponMatches_iff now code c).2 hcond) hno
      · intro c hc
        simp only [apply_coupon, hf] at hc
        cases hc
      · intro _
        simp only [apply_coupon, hf]
  | some c0 =>
      have hmem : c0 ∈ db.coupons := List.mem_of_find?_eq_some hf
      have hmatch : couponMatches now code c0 = true := List.find?_some hf
      refine ⟨?_, ?_, ?_⟩
      · simp only [apply_coupon, hf, Option.isSome_some, true_iff]
        exact ⟨c0, hmem, (couponMatches_iff now code c0).1 hmatch⟩
      · intro c hc
        simp only [apply_coupon, hf, Option.some.injEq] at hc
        subst hc
        refine ⟨hmem, hmatch, ?_, ?_, ?_, ?_, ?_, ?_⟩ <;>
          simp only [apply_coupon, hf, setCartCoupon]
      · intro hc
        simp only [apply_coupon, hf] at hc
        cases hc

theorem apply_coupon_correct_witness :
    (apply_coupon sampleDB 50 sampleCart "save10").2 = some sampleCoupon ∧
    sampleCoupon ∈ sampleDB.coupons ∧ couponMatches 50 "save10" sampleCoupon = true := by
  have h2 : (apply_coupon sampleDB 50 sampleCart "save10").2 = some sampleCoupon := by rfl
  have h := (apply_coupon_correct sampleDB 50 sampleCart "save10").2.1 sampleCoupon h2
  exact ⟨h2, h.1, h.2.1⟩

theorem countP_user_map_patch (l : List Cart) (uid cid : Nat) (sk : String) :
    (l.map (fun c => if c.id == cid then { c with session_key := sk } else c)).countP
      (fun c => c.user == some uid) = l.countP (fun c => c.user == some uid) := by
  rw [List.countP_map]
  apply List.countP_congr
  intro x _
  by_cases hx : (x.id == cid) = true <;> simp [Function.comp, hx]

/-- C5: `CartManager.__init__` fetches or creates exactly one cart keyed by
the authenticated user (so a user keeps a single cart), otherwise one keyed
by the session key with `user = None`; with neither an authenticated user
nor a session key it raises `ValueError` and the database is untouched. -/
theorem cart_manager_correct (db : DB) (user : Option UserRef) (sk : String) :
    (∀ u, user = some u → u.is_authenticated = true →
      ∃ db' c, mkCartManager db user sk = (db', Except.ok c) ∧ c.user = some u.id ∧
        c ∈ db'.carts ∧
        (userCartCount db u.id ≤ 1 → userCartCount db' u.id = 1)) ∧
    (effectiveUser user = none → sk ≠ "" →
      ∃ db' c, mkCartManager db user sk = (db', Except.ok c) ∧ c.user = none ∧
        c.session_key = sk ∧ c ∈ db'.carts) ∧
    (effectiveUser user = none → sk = "" →
      mkCartManager db user sk =
        (db, Except.error "Session key is required for anonymous carts")) := by
  refine ⟨?_, ?_, ?_⟩
  · rintro u rfl hauth
    cases hfc : db.carts.find? (fun c => c.user == some u.id) with
    | some cart =>
        have hcu : cart.user = some u.id := by
          have := List.find?_some hfc
          simpa using this
        have hcm : cart ∈ db.carts := List.mem_of_find?_eq_some hfc
        have hpos : 1 ≤ userCartCount db u.id := by
          unfold userCartCount
          exact List.countP_pos_iff.2 ⟨cart, hcm, by simp [hcu]⟩
        by_cases hb : sk ≠ "" ∧ cart.session_key = ""
        · refine ⟨{ db with
              carts := db.carts.map
                (fun c => if c.id == cart.id then { c with session_key := sk } else c) },
            { cart with session_key := sk }, ?_, hcu, ?_, ?_⟩
          · unfold mkCartManager effectiveUser
            simp only [hauth, if_true, hfc, patchSessionKey, if_pos hb]
          · have he : (fun c => if c.id == cart.id then { c with session_key := sk } else c) cart
                = { cart with session_key := sk } := by simp
            exact he ▸ List.mem_map_of_mem _ hcm
          · intro hle
            show (db.carts.map _).countP _ = 1
            rw [countP_user_map_patch db.carts u.id cart.id sk]
            unfold userCartCount at hpos hle
            omega
        · refine ⟨db, cart, ?_, hcu, hcm, ?_⟩
          · unfold mkCartManager effectiveUser
            simp only [hauth, if_true, hfc, patchSessionKey, if_neg hb]
          · intro hle
            unfold userCartCount at hpos hle ⊢
            omega
    | none =>
        have hzero : db.carts.countP (fun c => c.user == some u.id) = 0 := by
          apply List.countP_eq_zero.2
          intro c hc
          have := List.find?_eq_none.1 hfc c hc
          simpa using this
        have hone : (db.carts ++
            [({ id := db.nextId, user := some u.id, session_key := "",
                couponId := none } : Cart)]).countP (fun c => c.user == some u.id) = 1 := by
          rw [List.countP_append]
          simp [hzero]
        have hmem0 : ({ id := db.nextId, user := some u.id, session_key := "",
                        couponId := none } : Cart) ∈ db.carts ++
            [({ id := db.nextId, user := some u.id, session_key := "",
                couponId := none } : Cart)] :=
          List.mem_append_right _ (List.mem_singleton.2 rfl)
        by_cases hsk : sk = ""
        · refine ⟨{ db with
              carts := db.carts ++
                [{ id := db.nextId, user := some u.id, session_key := "", couponId := none }],
              nextId := db.nextId + 1 },
            { id := db.nextId, user := some u.id, session_key := "", couponId := none },
            ?_, rfl, hmem0, fun _ => hone⟩
          unfold mkCartManager effectiveUser
          simp only [hauth, if_true, hfc]
          unfold patchSessionKey
          rw [if_neg]
          rintro ⟨h1, _⟩
          exact h1 hsk
        · refine ⟨{ db with
              carts := ((db.carts ++
                [{ id := db.nextId, user := some u.id, session_key := "",
                   couponId := none }]) : List Cart).map
                  (fun (c : Cart) => if c.id == db.nextId then { c with session_key := sk } else c),
              nextId := db.nextId + 1 },
            { id := db.nextId, user := some u.id, session_key := sk, couponId := none },
            ?_, rfl, ?_, ?_⟩
          · unfold mkCartManager effectiveUser
            simp only [hauth, if_true, hfc]
            unfold patchSessionKey
            rw [if_pos (⟨hsk, rfl⟩ : sk ≠ "" ∧ _)]
          · have he : (fun c => if c.id == db.nextId then { c with session_key := sk } else c)
                ({ id := db.nextId, user := some u.id, session_key := "",
                   couponId := none } : Cart)
                = { id := db.nextId, user := some u.id, session_key := sk, couponId := none } := by
              simp
            exact he ▸ List.mem_map_of_mem _ hmem0
          · intro _
            show ((db.carts ++ [_]).map _).countP _ = 1
            rw [countP_user_map_patch _ u.id _ sk]
            exact hone
  · intro heff hsk
    unfold mkCartManager
    rw [heff]
    rw [if_neg hsk]
    cases hfc : db.carts.find? (fun c => c.session_key == sk && c.user == none) with
    | some cart =>
        have hpred := List.find?_some hfc
        rw [Bool.and_eq_true] at hpred
        refine ⟨db, cart, rfl, ?_, ?_, List.mem_of_find?_eq_some hfc⟩
        · have := hpred.2
          simpa using this
        · have := hpred.1
          simpa using this
    | none =>
        exact ⟨_, _, rfl, rfl, rfl, List.mem_append_right _ (List.mem_singleton.2 rfl)⟩
  · intro heff hsk
    unfold mkCartManager
    rw [heff, hsk]
    simp

theorem cart_manager_correct_witness :
    (sampleUser.is_authenticated = true) ∧
    ∃ db' c, mkCartManager sampleDB (some sampleUser) "sess" = (db', Except.ok c) ∧
      c.user = some sampleUser.id ∧ c ∈ db'.carts ∧
      (userCartCount sampleDB sampleUser.id ≤ 1 → userCartCount db' sampleUser.id = 1) :=
  ⟨rfl, (cart_manager_correct sampleDB (some sampleUser) "sess").1 sampleUser rfl rfl⟩

/-- C8: `add_product` treats `quantity < 1` exactly like `quantity = 1`;
with no existing row for the product it inserts one item carrying the given
quantity and the product's current price; with an existing row it adds the
quantity to it and refreshes `unit_price` to the product's current price,
never creating a second `(cart, product)` row. -/
theorem add_product_correct (db : DB) (cart : Cart) (p : Product) (q : Int)
    (hids : (db.cartItems.map CartItem.id).Nodup) :
    (q < 1 → add_product db cart p q = add_product db cart p 1) ∧
    (1 ≤ q → (cartItemsOf db cart.id).find? (fun it => it.productId == p.id) = none →
      (add_product db cart p q).1.cartItems =
        db.cartItems ++ [{ id := db.nextId, cartId := cart.id, productId := p.id,
                           quantity := q.toNat, unit_price := p.price }]) ∧
    (∀ item, 1 ≤ q →
      (cartItemsOf db cart.id).find? (fun it => it.productId == p.id) = some item →
      (add_product db cart p q).1.cartItems =
        db.cartItems.map (fun it => if it.id == item.id then
          { item with quantity := item.quantity + q.toNat, unit_price := p.price } else it) ∧
      (add_product db cart p q).1.cartItems.length = db.cartItems.length) ∧
    (db.cartItems.countP (fun it => it.cartId == cart.id && it.productId == p.id) ≤ 1 →
      (add_product db cart p q).1.cartItems.countP
        (fun it => it.cartId == cart.id && it.productId == p.id) = 1) := by
  refine ⟨?_, ?_, ?_, ?_⟩
  · intro hq
    simp [add_product, clampQty, if_pos hq]
  · intro hq hfind
    have hc : clampQty q = q.toNat := by
      unfold clampQty
      rw [if_neg (not_lt.2 hq)]
    simp only [add_product, hc, hfind]
  · intro item hq hfind
    have hc : clampQty q = q.toNat := by
      unfold clampQty
      rw [if_neg (not_lt.2 hq)]
    simp only [add_product, hc, hfind]
    constructor <;> simp
  · intro hle
    cases hfind : (cartItemsOf db cart.id).find? (fun it => it.productId == p.id) with
    | none =>
        have hzero : db.cartItems.countP
            (fun it => it.cartId == cart.id && it.productId == p.id) = 0 := by
          apply List.countP_eq_zero.2
          intro it hit hpred
          rw [Bool.and_eq_true] at hpred
          have hmemf : it ∈ cartItemsOf db cart.id :=
            List.mem_filter.2 ⟨hit, hpred.1⟩
          exact absurd hpred.2 (by simpa using List.find?_eq_none.1 hfind it hmemf)
        simp only [add_product, hfind]
        rw [List.countP_append, hzero]
        simp
    | some item =>
        have hitem_mem_f : item ∈ cartItemsOf db cart.id := List.mem_of_find?_eq_some hfind
        have hitem_mem : item ∈ db.cartItems := (List.mem_filter.1 hitem_mem_f).1
        have hitem_cart : (item.cartId == cart.id) = true := (List.mem_filter.1 hitem_mem_f).2
        have hitem_prod : (item.productId == p.id) = true := by
          have := List.find?_some hfind
          simpa using this
        have hpos : 1 ≤ db.cartItems.countP
            (fun it => it.cartId == cart.id && it.productId == p.id) := by
          apply List.countP_pos_iff.2
          exact ⟨item, hitem_mem, by rw [Bool.and_eq_true]; exact ⟨hitem_cart, hitem_prod⟩⟩
        simp only [add_product, hfind]
        rw [List.countP_map]
        have hpt : ∀ it ∈ db.cartItems,
            ((fun it => it.cartId == cart.id && it.productId == p.id) ∘
              (fun it => if it.id == item.id then { item with quantity := item.quantity + clampQty q, unit_price := p.price } else it)) it
            = (fun it => it.cartId == cart.id && it.productId == p.id) it := by
          intro it hit
          by_cases hid : (it.id == item.id) = true
          · have : it = item :=
              List.inj_on_of_nodup_map hids hit hitem_mem (beq_iff_eq.1 hid)
            subst this
            simp [Function.comp, hid, hitem_cart, hitem_prod]
          · simp [Function.comp, hid]
        rw [List.countP_congr (fun x hx => by rw [hpt x hx])]
        omega

theorem add_product_correct_witness :
    ((sampleDB.cartItems.map CartItem.id).Nodup ∧ (1 : Int) ≤ 2 ∧
      (cartItemsOf sampleDB sampleCart.id).find? (fun it => it.productId == sampleP3.id) = none) ∧
    (add_product sampleDB sampleCart sampleP3 2).1.cartItems =
      sampleDB.cartItems ++ [{ id := sampleDB.nextId, cartId := sampleCart.id, productId := sampleP3.id, quantity := (2 : Int).toNat, unit_price := sampleP3.price }] := by
  have h1 : (sampleDB.cartItems.map CartItem.id).Nodup := by decide
  exact ⟨⟨h1, by norm_num, rfl⟩,
    (add_product_correct sampleDB sampleCart sampleP3 2 h1).2.1 (by norm_num) rfl⟩

/-- C9: `update_quantity` returns `None` and changes nothing when the
product has no row in the cart; otherwise a quantity `< 1` deletes the row
and a quantity `≥ 1` overwrites the row's quantity (it does not add to it)
and refreshes `unit_price` to the product's current price. -/
theorem update_quantity_correct (db : DB) (cart : Cart) (p : Product) (q : Int) :
    ((cartItemsOf db cart.id).find? (fun it => it.productId == p.id) = none →
      update_quantity db cart p q = (db, none)) ∧
    (∀ item, (cartItemsOf db cart.id).find? (fun it => it.productId == p.id) = some item →
      q < 1 →
      update_quantity db cart p q =
        ({ db with cartItems := db.cartItems.filter (fun it => it.id != item.id) }, some item)) ∧
    (∀ item, (cartItemsOf db cart.id).find? (fun it => it.productId == p.id) = some item →
      1 ≤ q →
      update_quantity db cart p q =
        ({ db with
           cartItems := db.cartItems.map (fun it => if it.id == item.id then
             { item with quantity := q.toNat, unit_price := p.price } else it) },
         some { item with quantity := q.toNat, unit_price := p.price })) := by
  refine ⟨?_, ?_, ?_⟩
  · intro hfind
    simp only [update_quantity, hfind]
  · intro item hfind hq
    simp only [update_quantity, hfind, if_pos hq]
  · intro item hfind hq
    simp only [update_quantity, hfind, if_neg (not_lt.2 hq)]

theorem update_quantity_correct_witness :
    ((cartItemsOf sampleDB sampleCart.id).find?
        (fun it => it.productId == sampleP3.id) = none) ∧
    update_quantity sampleDB sampleCart sampleP3 4 = (sampleDB, none) :=
  ⟨rfl, (update_quantity_correct sampleDB sampleCart sampleP3 4).1 rfl⟩

theorem selectRelated_snd_ids {db : DB} {items : List CartItem}
    {lines : List (CartItem × Product)} (hsel : selectRelated db items = some lines) :
    lines.map (fun l => l.2.id) = items.map CartItem.productId := by
  have h1 : ∀ l ∈ lines, l.2.id = l.1.productId := fun l hl =>
    productById_id (selectRelated_mem hsel l hl)
  calc lines.map (fun l => l.2.id)
      = lines.map (fun l => l.1.productId) := List.map_congr_left h1
    _ = (lines.map Prod.fst).map CartItem.productId := by rw [List.map_map]; rfl
    _ = items.map CartItem.productId := by rw [selectRelated_fst hsel]

theorem filter_eq_ne_nil (l : List CartItem) (cid : Nat) :
    (l.filter (fun it => it.cartId != cid)).filter (fun it => it.cartId == cid) = [] := by
  induction l with
  | nil => rfl
  | cons a t ih =>
      by_cases ha : (a.cartId == cid) = true
      · have : (a.cartId != cid) = false := by simp [bne, ha]
        simp only [List.filter, this]
        exact ih
      · have : (a.cartId != cid) = true := by simp [bne, ha]
        simp only [List.filter, this, ha]
        exact ih

/-- C1: for the storefront's checkout call (an authenticated user checking
out their own cart, every item's product row present), `checkout_cart`
raises `ValueError` exactly when some cart item's product has
`stock < quantity`, and the atomic transaction then leaves the database
unchanged (so stock is never driven negative); when every item satisfies
`stock ≥ quantity` it does not raise. -/
theorem checkout_insufficient_stock (db : DB) (cart : Cart) (addressId : Nat)
    (user : UserRef) (notes : String) (lines : List (CartItem × Product))
    (hauth : user.is_authenticated = true)
    (hfind : db.carts.find? (fun c => c.user == some user.id) = some cart)
    (hsel : selectRelated db (cartItemsOf db cart.id) = some lines) :
    ((∃ it ∈ cartItemsOf db cart.id, ∃ p, productById db it.productId = some p ∧
        p.stock < it.quantity) ↔
      isErr (checkout_cart db cart addressId user notes).2 = true) ∧
    (isErr (checkout_cart db cart addressId user notes).2 = true →
      (checkout_cart db cart addressId user notes).1 = db) := by
  have hview := checkout_cart_steps hauth hfind addressId notes hsel
  have hAB := selectRelated_exists (fun it p => p.stock < it.quantity) hsel
  have hBE := decrementStocks_err_iff lines
    (dbWithOrder db (orderOf db cart addressId user notes))
  cases hdec : decrementStocks lines (dbWithOrder db (orderOf db cart addressId user notes)) with
  | error e =>
      rw [hdec] at hview hBE
      have hview2 : checkout_cart db cart addressId user notes = (db, Except.error e) := hview
      constructor
      · constructor
        · intro _
          rw [hview2]
          rfl
        · intro _
          exact hAB.1 (hBE.1 rfl)
      · intro _
        rw [hview2]
  | ok db3 =>
      rw [hdec] at hview hBE
      have hview2 : checkout_cart db cart addressId user notes =
          (postCheckout db3 cart.id (orderOf db cart addressId user notes).id lines,
           Except.ok (orderOf db cart addressId user notes)) := hview
      constructor
      · constructor
        · intro hA
          exact absurd (hBE.2 (hAB.2 hA)) (by simp [isErr])
        · intro hE
          rw [hview2] at hE
          simp [isErr] at hE
      · intro hE
        rw [hview2] at hE
        simp [isErr] at hE

theorem checkout_insufficient_stock_witness :
    (∃ it ∈ cartItemsOf sampleBadDB sampleCart.id, ∃ p,
        productById sampleBadDB it.productId = some p ∧ p.stock < it.quantity) ∧
    isErr (checkout_cart sampleBadDB sampleCart 40 sampleUser "").2 = true ∧
    (checkout_cart sampleBadDB sampleCart 40 sampleUser "").1 = sampleBadDB := by
  have hsel : selectRelated sampleBadDB (cartItemsOf sampleBadDB sampleCart.id) =
      some [(sampleItem1, sampleP1), (sampleBadItem, sampleP2)] := rfl
  have hA : ∃ it ∈ cartItemsOf sampleBadDB sampleCart.id, ∃ p,
      productById sampleBadDB it.productId = some p ∧ p.stock < it.quantity := by
    refine ⟨sampleBadItem, ?_, sampleP2, rfl, ?_⟩
    · show sampleBadItem ∈ [sampleItem1, sampleBadItem]
      simp
    · show sampleP2.stock < sampleBadItem.quantity
      norm_num [sampleP2, sampleBadItem]
  have h := checkout_insufficient_stock sampleBadDB sampleCart 40 sampleUser ""
    [(sampleItem1, sampleP1), (sampleBadItem, sampleP2)] rfl rfl hsel
  have hE := h.1.1 hA
  exact ⟨hA, hE, h.2 hE⟩

/-- C2: when every cart item's product has sufficient stock, the
storefront checkout succeeds: each cart item's product loses exactly that
item's quantity of stock and nothing else changes in the product table,
one order item per cart item copies its quantity and `unit_price`, the
cart ends with zero items and no coupon, and the order is `pending`. -/
theorem checkout_success (db : DB) (cart : Cart) (addressId : Nat) (user : UserRef)
    (notes : String) (lines : List (CartItem × Product))
    (hauth : user.is_authenticated = true)
    (hfind : db.carts.find? (fun c => c.user == some user.id) = some cart)
    (hsel : selectRelated db (cartItemsOf db cart.id) = some lines)
    (hstock : ∀ l ∈ lines, l.1.quantity ≤ l.2.stock)
    (hnodupP : (db.products.map Product.id).Nodup)
    (hnodupI : ((cartItemsOf db cart.id).map CartItem.productId).Nodup) :
    ∃ db' order, checkout_cart db cart addressId user notes = (db', Except.ok order) ∧
      order.status = OrderStatus.pending ∧
      db'.products = db.products.map (stockAfter (cartItemsOf db cart.id)) ∧
      db'.orderItems.take db.orderItems.length = db.orderItems ∧
      (db'.orderItems.drop db.orderItems.length).map
          (fun oi => (oi.orderId, oi.productId, oi.quantity, oi.unit_price)) =
        (cartItemsOf db cart.id).map
          (fun it => (order.id, it.productId, it.quantity, it.unit_price)) ∧
      cartItemsOf db' cart.id = [] ∧
      (∀ c ∈ db'.carts, c.id = cart.id → c.couponId = none) := by
  have hview := checkout_cart_steps hauth hfind addressId notes hsel
  obtain ⟨db3, hdec⟩ := decrementStocks_ok_of lines
    (dbWithOrder db (orderOf db cart addressId user notes)) hstock
  rw [hdec] at hview
  have hview2 : checkout_cart db cart addressId user notes =
      (postCheckout db3 cart.id (orderOf db cart addressId user notes).id lines,
       Except.ok (orderOf db cart addressId user notes)) := hview
  have hfrm := decrementStocks_frame lines _ _ hdec
  have heq3 := decrementStocks_ok_eq lines _ _ hdec
  have hids : (lines.map (fun l => l.2.id)).Nodup := by
    rw [selectRelated_snd_ids hsel]
    exact hnodupI
  have hps : db3.products = db.products.map (stockAfter (cartItemsOf db cart.id)) := by
    have h1 : db3.products = ((dbWithOrder db (orderOf db cart addressId user notes)) :
        DB).products.map (lineStockUpd lines) := by
      rw [heq3]
      exact foldl_setProductRow_products lines _ hids
    rw [h1]
    exact List.map_congr_left (fun q hq => lineStockUpd_eq_stockAfter hsel hnodupP q hq)
  have hoi : (postCheckout db3 cart.id (orderOf db cart addressId user notes).id lines).orderItems
      = db.orderItems ++ buildOrderItems (orderOf db cart addressId user notes).id
          db3.nextId lines := by
    show db3.orderItems ++ _ = _
    rw [hfrm.2.2.2.2.2.1]
    rfl
  refine ⟨postCheckout db3 cart.id (orderOf db cart addressId user notes).id lines,
    orderOf db cart addressId user notes, hview2, rfl, hps, ?_, ?_, ?_, ?_⟩
  · rw [hoi, List.take_left]
  · rw [hoi, List.drop_left, buildOrderItems_map]
    have h1 : ∀ l ∈ lines,
        ((orderOf db cart addressId user notes).id, l.2.id, l.1.quantity, l.1.unit_price)
        = ((orderOf db cart addressId user notes).id, l.1.productId, l.1.quantity,
           l.1.unit_price) := by
      intro l hl
      rw [productById_id (selectRelated_mem hsel l hl)]
    rw [List.map_congr_left h1]
    rw [show (fun l : CartItem × Product =>
          ((orderOf db cart addressId user notes).id, l.1.productId, l.1.quantity,
            l.1.unit_price))
        = ((fun it : CartItem => ((orderOf db cart addressId user notes).id, it.productId,
            it.quantity, it.unit_price)) ∘ Prod.fst) from rfl]
    rw [← List.map_map, selectRelated_fst hsel]
  · show (db3.cartItems.filter _).filter _ = []
    exact filter_eq_ne_nil db3.cartItems cart.id
  · intro c hc hcid
    rcases List.mem_map.1 hc with ⟨x, _, rfl⟩
    by_cases hxid : (x.id == cart.id) = true
    · simp only [if_pos hxid]
    · rw [if_neg hxid] at hcid ⊢
      exact absurd (by simp [hcid]) hxid

theorem checkout_success_witness :
    ((∀ l ∈ [(sampleItem1, sampleP1), (sampleItem2, sampleP2)], l.1.quantity ≤ l.2.stock) ∧
      (sampleDB.products.map Product.id).Nodup ∧
      ((cartItemsOf sampleDB sampleCart.id).map CartItem.productId).Nodup) ∧
    (∃ db' order, checkout_cart sampleDB sampleCart 40 sampleUser "" = (db', Except.ok order) ∧
      order.status = OrderStatus.pending ∧
      db'.products = sampleDB.products.map (stockAfter (cartItemsOf sampleDB sampleCart.id)) ∧
      db'.orderItems.take sampleDB.orderItems.length = sampleDB.orderItems ∧
      (db'.orderItems.drop sampleDB.orderItems.length).map
          (fun oi => (oi.orderId, oi.productId, oi.quantity, oi.unit_price)) =
        (cartItemsOf sampleDB sampleCart.id).map
          (fun it => (order.id, it.productId, it.quantity, it.unit_price)) ∧
      cartItemsOf db' sampleCart.id = [] ∧
      (∀ c ∈ db'.carts, c.id = sampleCart.id → c.couponId = none)) := by
  have hstock : ∀ l ∈ [(sampleItem1, sampleP1), (sampleItem2, sampleP2)],
      l.1.quantity ≤ l.2.stock := by decide
  have hnp : (sampleDB.products.map Product.id).Nodup := by decide
  have hni : ((cartItemsOf sampleDB sampleCart.id).map CartItem.productId).Nodup := by decide
  exact ⟨⟨hstock, hnp, hni⟩,
    checkout_success sampleDB sampleCart 40 sampleUser ""
      [(sampleItem1, sampleP1), (sampleItem2, sampleP2)] rfl rfl rfl hstock hnp hni⟩

theorem cartItemsOf_congr {db1 db2 : DB} (h : db1.cartItems = db2.cartItems) (cid : Nat) :
    cartItemsOf db1 cid = cartItemsOf db2 cid := by
  unfold cartItemsOf
  rw [h]

theorem mkCartManager_shape (db : DB) (user : Option UserRef) (sk : String) :
    ∃ cs n, (mkCartManager db user sk).1 = { db with carts := cs, nextId := n } := by
  have hanon : effectiveUser user = none →
      ∃ cs n, (mkCartManager db user sk).1 = { db with carts := cs, nextId := n } := by
    intro h
    by_cases hsk : sk = ""
    · refine ⟨db.carts, db.nextId, ?_⟩
      unfold mkCartManager
      rw [h, hsk]
      simp
    · cases hfc : db.carts.find? (fun c => c.session_key == sk && c.user == none) with
      | some cart =>
          refine ⟨db.carts, db.nextId, ?_⟩
          unfold mkCartManager
          rw [h, if_neg hsk, hfc]
      | none =>
          refine ⟨db.carts ++
            [{ id := db.nextId, user := none, session_key := sk, couponId := none }],
            db.nextId + 1, ?_⟩
          unfold mkCartManager
          rw [h, if_neg hsk, hfc]
  cases user with
  | none => exact hanon rfl
  | some u =>
      cases hauth : u.is_authenticated with
      | false => exact hanon (by simp [effectiveUser, hauth])
      | true =>
          cases hfc : db.carts.find? (fun c => c.user == some u.id) with
          | some cart =>
              by_cases hb : sk ≠ "" ∧ cart.session_key = ""
              · refine ⟨db.carts.map
                  (fun c => if c.id == cart.id then { c with session_key := sk } else c),
                  db.nextId, ?_⟩
                unfold mkCartManager effectiveUser
                simp only [hauth, if_true, hfc, patchSessionKey, if_pos hb]
              · refine ⟨db.carts, db.nextId, ?_⟩
                unfold mkCartManager effectiveUser
                simp only [hauth, if_true, hfc, patchSessionKey, if_neg hb]
          | none =>
              by_cases hsk : sk = ""
              · refine ⟨db.carts ++
                  [{ id := db.nextId, user := some u.id, session_key := "", couponId := none }],
                  db.nextId + 1, ?_⟩
                unfold mkCartManager effectiveUser
                simp only [hauth, if_true, hfc]
                unfold patchSessionKey
                rw [if_neg]
                rintro ⟨h1, _⟩
                exact h1 hsk
              · refine ⟨((db.carts ++
                  [({ id := db.nextId, user := some u.id, session_key := "",
                      couponId := none } : Cart)]) : List Cart).map
                    (fun (c : Cart) => if c.id == db.nextId then { c with session_key := sk } else c),
                  db.nextId + 1, ?_⟩
                unfold mkCartManager effectiveUser
                simp only [hauth, if_true, hfc]
                unfold patchSessionKey
                rw [if_pos (⟨hsk, rfl⟩ : sk ≠ "" ∧ _)]

theorem mkCartManager_frame (db : DB) (user : Option UserRef) (sk : String) :
    (mkCartManager db user sk).1.products = db.products ∧
    (mkCartManager db user sk).1.commitments = db.commitments ∧
    (mkCartManager db user sk).1.coupons = db.coupons ∧
    (mkCartManager db user sk).1.cartItems = db.cartItems ∧
    (mkCartManager db user sk).1.orders = db.orders ∧
    (mkCartManager db user sk).1.orderItems = db.orderItems := by
  obtain ⟨cs, n, h⟩ := mkCartManager_shape db user sk
  rw [h]
  exact ⟨rfl, rfl, rfl, rfl, rfl, rfl⟩

theorem checkoutBody_ok_fields (db : DB) (cart : Cart) (a : Nat) (user : UserRef)
    (n : String) {r : DB × Order} (h : checkoutBody db cart a user n = Except.ok r) :
    r.1.coupons = db.coupons ∧
    r.1.commitments = db.commitments ∧
    r.1.orders = db.orders ++ [r.2] ∧
    r.1.orderItems.take db.orderItems.length = db.orderItems ∧
    (∀ oi ∈ r.1.orderItems.drop db.orderItems.length, oi.orderId = r.2.id ∧
      ∃ it ∈ cartItemsOf db cart.id, oi.productId = it.productId ∧
        oi.quantity = it.quantity ∧ oi.unit_price = it.unit_price) ∧
    r.2.status = OrderStatus.pending ∧ r.2.addressId = a ∧ r.2.notes = n := by
  have hm := mkCartManager_frame db (some user) cart.session_key
  unfold checkoutBody at h
  cases hmk : mkCartManager db (some user) cart.session_key with
  | mk db1 res =>
      rw [hmk] at h hm
      cases res with
      | error e =>
          have h2 : (Except.error e : Except String (DB × Order)) = Except.ok r := h
          cases h2
      | ok mcart =>
          have h2 : (match selectRelated (dbWithOrder db1 (orderMixed db1 mcart cart a user n))
                (cartItemsOf (dbWithOrder db1 (orderMixed db1 mcart cart a user n)) cart.id) with
              | none => (Except.error "missing product row" : Except String (DB × Order))
              | some lines =>
                  match decrementStocks lines
                      (dbWithOrder db1 (orderMixed db1 mcart cart a user n)) with
                  | Except.error e => Except.error e
                  | Except.ok db3 =>
                      Except.ok (postCheckout db3 cart.id
                          (orderMixed db1 mcart cart a user n).id lines,
                        orderMixed db1 mcart cart a user n)) = Except.ok r := h
          have hci : cartItemsOf (dbWithOrder db1 (orderMixed db1 mcart cart a user n)) cart.id
              = cartItemsOf db cart.id := cartItemsOf_congr hm.2.2.2.1 cart.id
          rw [hci] at h2
          cases hsel : selectRelated (dbWithOrder db1 (orderMixed db1 mcart cart a user n))
              (cartItemsOf db cart.id) with
          | none =>
              rw [hsel] at h2
              have h3 : (Except.error "missing product row" : Except String (DB × Order))
                  = Except.ok r := h2
              cases h3
          | some lines =>
              rw [hsel] at h2
              have h3 : (match decrementStocks lines
                    (dbWithOrder db1 (orderMixed db1 mcart cart a user n)) with
                  | Except.error e => (Except.error e : Except String (DB × Order))
                  | Except.ok db3 =>
                      Except.ok (postCheckout db3 cart.id
                          (orderMixed db1 mcart cart a user n).id lines,
                        orderMixed db1 mcart cart a user n)) = Except.ok r := h2
              cases hdec : decrementStocks lines
                  (dbWithOrder db1 (orderMixed db1 mcart cart a user n)) with
              | error e =>
                  rw [hdec] at h3
                  cases h3
              | ok db3 =>
                  rw [hdec] at h3
                  have h4 : (postCheckout db3 cart.id
                      (orderMixed db1 mcart cart a user n).id lines,
                      orderMixed db1 mcart cart a user n) = r := by
                    injection h3
                  subst h4
                  have hfr := decrementStocks_frame lines _ _ hdec
                  have hcoup : db3.coupons = db.coupons := by
                    rw [hfr.2.1]
                    exact hm.2.2.1
                  have hcomm : db3.commitments = db.commitments := by
                    rw [hfr.1]
                    exact hm.2.1
                  have hord : db3.orders = db.orders ++ [orderMixed db1 mcart cart a user n] := by
                    rw [hfr.2.2.2.2.1]
                    show db1.orders ++ _ = _
                    rw [hm.2.2.2.2.1]
                  have hoi : db3.orderItems = db.orderItems := by
                    rw [hfr.2.2.2.2.2.1]
                    exact hm.2.2.2.2.2
                  have hoi2 : (postCheckout db3 cart.id
                        (orderMixed db1 mcart cart a user n).id lines).orderItems
                      = db.orderItems ++ buildOrderItems (orderMixed db1 mcart cart a user n).id
                          db3.nextId lines := by
                    show db3.orderItems ++ _ = _
                    rw [hoi]
                  refine ⟨hcoup, hcomm, ?_, ?_, ?_, rfl, rfl, rfl⟩
                  · show db3.orders = _
                    exact hord
                  · rw [hoi2, List.take_left]
                  · rw [hoi2, List.drop_left]
                    intro oi hmem
                    obtain ⟨hoid, l, hl, hfields⟩ :=
                      buildOrderItems_mem _ lines db3.nextId oi hmem
                    refine ⟨hoid, l.1, ?_, ?_, hfields.2⟩
                    · have := selectRelated_fst hsel
                      rw [← this]
                      exact List.mem_map_of_mem Prod.fst hl
                    · rw [hfields.1, productById_id (selectRelated_mem hsel l hl)]

theorem checkout_cart_missing {db : DB} {cart : Cart} {user : UserRef}
    (hauth : user.is_authenticated = true)
    (hfind : db.carts.find? (fun c => c.user == some user.id) = some cart)
    (a : Nat) (n : String)
    (hsel : selectRelated db (cartItemsOf db cart.id) = none) :
    checkout_cart db cart a user n = (db, Except.error "missing product row") := by
  unfold checkout_cart checkoutBody
  rw [mkCartManager_self hauth hfind]
  simp only []
  rw [cartItemsOf_orders, selectRelated_orders, hsel]

/-- C6: an order (and its items) written by `checkout_cart` is an append-only
snapshot: the cart-item quantities and captured unit prices are copied into
order items, the order records the given address, notes, pending status and
— for the storefront's own call — the cart's totals and coupon at checkout
time; and no cart, product or coupon operation (nor a failed checkout)
modifies any existing order or order item row. -/
theorem orders_immutable (db : DB) :
    (∀ cart p q, (add_product db cart p q).1.orders = db.orders ∧
      (add_product db cart p q).1.orderItems = db.orderItems) ∧
    (∀ cart p q, (update_quantity db cart p q).1.orders = db.orders ∧
      (update_quantity db cart p q).1.orderItems = db.orderItems) ∧
    (∀ cart p, (remove_product db cart p).orders = db.orders ∧
      (remove_product db cart p).orderItems = db.orderItems) ∧
    (∀ now cart code, (apply_coupon db now cart code).1.orders = db.orders ∧
      (apply_coupon db now cart code).1.orderItems = db.orderItems) ∧
    (∀ user sk, (mkCartManager db user sk).1.orders = db.orders ∧
      (mkCartManager db user sk).1.orderItems = db.orderItems) ∧
    (∀ cart a user n, isErr (checkout_cart db cart a user n).2 = true →
      (checkout_cart db cart a user n).1 = db) ∧
    (∀ cart a user n db' o, checkout_cart db cart a user n = (db', Except.ok o) →
      db'.orders = db.orders ++ [o] ∧
      db'.orderItems.take db.orderItems.length = db.orderItems ∧
      o.status = OrderStatus.pending ∧ o.addressId = a ∧ o.notes = n ∧
      (∀ oi ∈ db'.orderItems.drop db.orderItems.length, oi.orderId = o.id ∧
        ∃ it ∈ cartItemsOf db cart.id, oi.productId = it.productId ∧
          oi.quantity = it.quantity ∧ oi.unit_price = it.unit_price)) ∧
    (∀ cart a user n db' o, user.is_authenticated = true →
      db.carts.find? (fun c => c.user == some user.id) = some cart →
      checkout_cart db cart a user n = (db', Except.ok o) →
      o.subtotal = (totals db cart).subtotal ∧ o.discount = (totals db cart).discount ∧
      o.total = (totals db cart).total ∧ o.couponId = cart.couponId) := by
  refine ⟨?_, ?_, ?_, ?_, ?_, ?_, ?_, ?_⟩
  · intro cart p q
    cases hf : (cartItemsOf db cart.id).find? (fun it => it.productId == p.id) with
    | some item => constructor <;> simp only [add_product, hf]
    | none => constructor <;> simp only [add_product, hf]
  · intro cart p q
    cases hf : (cartItemsOf db cart.id).find? (fun it => it.productId == p.id) with
    | some item =>
        by_cases hq : q < 1
        · constructor <;> simp only [update_quantity, hf, if_pos hq]
        · constructor <;> simp only [update_quantity, hf, if_neg hq]
    | none => constructor <;> simp only [update_quantity, hf]
  · intro cart p
    exact ⟨rfl, rfl⟩
  · intro now cart code
    cases hf : db.coupons.find? (couponMatches now code) with
    | some c => constructor <;> simp only [apply_coupon, hf, setCartCoupon]
    | none => constructor <;> simp only [apply_coupon, hf]
  · intro user sk
    exact ⟨(mkCartManager_frame db user sk).2.2.2.2.1,
      (mkCartManager_frame db user sk).2.2.2.2.2⟩
  · intro cart a user n hE
    unfold checkout_cart at hE ⊢
    cases hcb : checkoutBody db cart a user n with
    | error e => rfl
    | ok r =>
        rw [hcb] at hE
        have hE2 : isErr (Except.ok r.2) = true := hE
        simp [isErr] at hE2
  · intro cart a user n db' o h
    unfold checkout_cart at h
    cases hcb : checkoutBody db cart a user n with
    | error e =>
        rw [hcb] at h
        have h2 : ((db, Except.error e) : DB × Except String Order) = (db', Except.ok o) := h
        have h3 := congrArg Prod.snd h2
        simp at h3
    | ok r =>
        rw [hcb] at h
        have h2 : ((r.1, Except.ok r.2) : DB × Except String Order) = (db', Except.ok o) := h
        have hfst := congrArg Prod.fst h2
        have hsnd := congrArg Prod.snd h2
        simp at hfst hsnd
        obtain ⟨hc1, hc2, hc3, hc4, hc5, hc6, hc7, hc8⟩ := checkoutBody_ok_fields db cart a user n hcb
        subst hfst
        rw [← hsnd]
        exact ⟨hc3, hc4, hc6, hc7, hc8, hc5⟩
  · intro cart a user n db' o hauth hfind h
    cases hsel : selectRelated db (cartItemsOf db cart.id) with
    | none =>
        rw [checkout_cart_missing hauth hfind a n hsel] at h
        have h3 := congrArg Prod.snd h
        simp at h3
    | some lines =>
        have hview := checkout_cart_steps hauth hfind a n hsel
        cases hdec : decrementStocks lines (dbWithOrder db (orderOf db cart a user n)) with
        | error e =>
            rw [hdec] at hview
            have hv2 : checkout_cart db cart a user n = (db, Except.error e) := hview
            rw [hv2] at h
            have h3 := congrArg Prod.snd h
            simp at h3
        | ok db3 =>
            rw [hdec] at hview
            have hv2 : checkout_cart db cart a user n
                = (postCheckout db3 cart.id (orderOf db cart a user n).id lines,
                   Except.ok (orderOf db cart a user n)) := hview
            rw [hv2] at h
            have h3 := congrArg Prod.snd h
            simp at h3
            rw [← h3]
            exact ⟨rfl, rfl, rfl, rfl⟩

theorem carts_withComm (db : DB) (l : List InventoryCommitment) :
    (withComm db l).carts = db.carts := rfl

theorem cartItemsOf_withComm (db : DB) (l : List InventoryCommitment) (cid : Nat) :
    cartItemsOf (withComm db l) cid = cartItemsOf db cid := rfl

theorem coupons_withComm (db : DB) (l : List InventoryCommitment) :
    (withComm db l).coupons = db.coupons := rfl

theorem totals_withComm (db : DB) (l : List InventoryCommitment) (cart : Cart) :
    totals (withComm db l) cart = totals db cart := rfl

theorem add_product_withComm (db : DB) (l : List InventoryCommitment) (cart : Cart)
    (p : Product) (q : Int) :
    add_product (withComm db l) cart p q
      = (withComm (add_product db cart p q).1 l, (add_product db cart p q).2) := by
  cases hf : (cartItemsOf db cart.id).find? (fun it => it.productId == p.id) with
  | some item => simp only [add_product, cartItemsOf_withComm, hf]; rfl
  | none => simp only [add_product, cartItemsOf_withComm, hf]; rfl

theorem update_quantity_withComm (db : DB) (l : List InventoryCommitment) (cart : Cart)
    (p : Product) (q : Int) :
    update_quantity (withComm db l) cart p q
      = (withComm (update_quantity db cart p q).1 l, (update_quantity db cart p q).2) := by
  cases hf : (cartItemsOf db cart.id).find? (fun it => it.productId == p.id) with
  | some item =>
      by_cases hq : q < 1
      · simp only [update_quantity, cartItemsOf_withComm, hf, if_pos hq]; rfl
      · simp only [update_quantity, cartItemsOf_withComm, hf, if_neg hq]; rfl
  | none => simp only [update_quantity, cartItemsOf_withComm, hf]

theorem remove_product_withComm (db : DB) (l : List InventoryCommitment) (cart : Cart)
    (p : Product) :
    remove_product (withComm db l) cart p = withComm (remove_product db cart p) l := rfl

theorem apply_coupon_withComm (db : DB) (l : List InventoryCommitment) (now : Int)
    (cart : Cart) (code : String) :
    apply_coupon (withComm db l) now cart code
      = (withComm (apply_coupon db now cart code).1 l, (apply_coupon db now cart code).2) := by
  cases hf : db.coupons.find? (couponMatches now code) with
  | some c => simp only [apply_coupon, coupons_withComm, hf]; rfl
  | none => simp only [apply_coupon, coupons_withComm, hf]

theorem mkCartManager_withComm (db : DB) (l : List InventoryCommitment)
    (user : Option UserRef) (sk : String) :
    mkCartManager (withComm db l) user sk
      = (withComm (mkCartManager db user sk).1 l, (mkCartManager db user sk).2) := by
  have hanon : effectiveUser user = none →
      mkCartManager (withComm db l) user sk
        = (withComm (mkCartManager db user sk).1 l, (mkCartManager db user sk).2) := by
    intro heff
    unfold mkCartManager
    rw [heff]
    by_cases hsk : sk = ""
    · rw [if_pos hsk, if_pos hsk]
    · rw [if_neg hsk, if_neg hsk, carts_withComm]
      cases hfc : db.carts.find? (fun c => c.session_key == sk && c.user == none) with
      | some cart => rfl
      | none => rfl
  cases user with
  | none => exact hanon rfl
  | some u =>
      cases hauth : u.is_authenticated with
      | false => exact hanon (by simp [effectiveUser, hauth])
      | true =>
          cases hfc : db.carts.find? (fun c => c.user == some u.id) with
          | some cart =>
              unfold mkCartManager effectiveUser
              simp only [hauth, if_true, carts_withComm, hfc]
              unfold patchSessionKey
              by_cases hb : sk ≠ "" ∧ cart.session_key = ""
              · rw [if_pos hb, if_pos hb]
                rfl
              · rw [if_neg hb, if_neg hb]
          | none =>
              unfold mkCartManager effectiveUser
              simp only [hauth, if_true, carts_withComm, hfc]
              unfold patchSessionKey
              by_cases hsk : sk = ""
              · rw [if_neg, if_neg]
                · rfl
                · rintro ⟨h1, _⟩; exact h1 hsk
                · rintro ⟨h1, _⟩; exact h1 hsk
              · rw [if_pos (⟨hsk, rfl⟩ : sk ≠ "" ∧ _)]
                rw [if_pos (⟨hsk, rfl⟩ : sk ≠ "" ∧ _)]
                rfl

theorem selectRelated_withComm (db : DB) (l : List InventoryCommitment)
    (items : List CartItem) :
    selectRelated (withComm db l) items = selectRelated db items :=
  @selectRelated_congr (withComm db l) db rfl items

theorem decrementStocks_withComm (l : List InventoryCommitment) :
    ∀ (lines : List (CartItem × Product)) (db : DB),
      decrementStocks lines (withComm db l)
        = (decrementStocks lines db).map (fun d => withComm d l) := by
  intro lines
  induction lines with
  | nil => intro db; rfl
  | cons x rest ih =>
      intro db
      obtain ⟨it, p⟩ := x
      by_cases hlt : p.stock < it.quantity
      · simp only [decrementStocks, if_pos hlt]
        rfl
      · simp only [decrementStocks, if_neg hlt]
        rw [show setProductRow (withComm db l) { p with stock := p.stock - it.quantity }
              = withComm (setProductRow db { p with stock := p.stock - it.quantity }) l from rfl]
        exact ih _

theorem checkoutBody_withComm (db : DB) (l : List InventoryCommitment) (cart : Cart)
    (a : Nat) (user : UserRef) (n : String) :
    checkoutBody (withComm db l) cart a user n
      = (checkoutBody db cart a user n).map (fun r => (withComm r.1 l, r.2)) := by
  cases hmk : mkCartManager db (some user) cart.session_key with
  | mk db1 res =>
      cases res with
      | error e =>
          have hL : checkoutBody (withComm db l) cart a user n = Except.error e := by
            unfold checkoutBody
            rw [mkCartManager_withComm db l (some user) cart.session_key, hmk]
          have hR : checkoutBody db cart a user n = Except.error e := by
            unfold checkoutBody
            rw [hmk]
          rw [hL, hR]
          rfl
      | ok mcart =>
          have hL : checkoutBody (withComm db l) cart a user n
              = (match selectRelated
                    (withComm (dbWithOrder db1 (orderMixed db1 mcart cart a user n)) l)
                    (cartItemsOf
                      (withComm (dbWithOrder db1 (orderMixed db1 mcart cart a user n)) l)
                      cart.id) with
                 | none => (Except.error "missing product row" : Except String (DB × Order))
                 | some lines =>
                     match decrementStocks lines
                         (withComm (dbWithOrder db1 (orderMixed db1 mcart cart a user n)) l) with
                     | Except.error e => Except.error e
                     | Except.ok db3 =>
                         Except.ok (postCheckout db3 cart.id
                             (orderMixed db1 mcart cart a user n).id lines,
                           orderMixed db1 mcart cart a user n)) := by
            unfold checkoutBody
            rw [mkCartManager_withComm db l (some user) cart.session_key, hmk]
            rfl
          have hR : checkoutBody db cart a user n
              = (match selectRelated (dbWithOrder db1 (orderMixed db1 mcart cart a user n))
                    (cartItemsOf (dbWithOrder db1 (orderMixed db1 mcart cart a user n))
                      cart.id) with
                 | none => (Except.error "missing product row" : Except String (DB × Order))
                 | some lines =>
                     match decrementStocks lines
                         (dbWithOrder db1 (orderMixed db1 mcart cart a user n)) with
                     | Except.error e => Except.error e
                     | Except.ok db3 =>
                         Except.ok (postCheckout db3 cart.id
                             (orderMixed db1 mcart cart a user n).id lines,
                           orderMixed db1 mcart cart a user n)) := by
            unfold checkoutBody
            rw [hmk]
            rfl
          rw [selectRelated_withComm, cartItemsOf_withComm] at hL
          cases hsel : selectRelated (dbWithOrder db1 (orderMixed db1 mcart cart a user n))
              (cartItemsOf (dbWithOrder db1 (orderMixed db1 mcart cart a user n)) cart.id) with
          | none =>
              rw [hsel] at hL hR
              have hL2 : checkoutBody (withComm db l) cart a user n
                  = Except.error "missing product row" := hL
              have hR2 : checkoutBody db cart a user n
                  = Except.error "missing product row" := hR
              rw [hL2, hR2]
              rfl
          | some lines =>
              rw [hsel] at hL hR
              have hL2 : checkoutBody (withComm db l) cart a user n
                  = (match decrementStocks lines
                        (withComm (dbWithOrder db1 (orderMixed db1 mcart cart a user n)) l) with
                     | Except.error e => (Except.error e : Except String (DB × Order))
                     | Except.ok db3 =>
                         Except.ok (postCheckout db3 cart.id
                             (orderMixed db1 mcart cart a user n).id lines,
                           orderMixed db1 mcart cart a user n)) := hL
              have hR2 : checkoutBody db cart a user n
                  = (match decrementStocks lines
                        (dbWithOrder db1 (orderMixed db1 mcart cart a user n)) with
                     | Except.error e => (Except.error e : Except String (DB × Order))
                     | Except.ok db3 =>
                         Except.ok (postCheckout db3 cart.id
                             (orderMixed db1 mcart cart a user n).id lines,
                           orderMixed db1 mcart cart a user n)) := hR
              rw [decrementStocks_withComm] at hL2
              cases hdec : decrementStocks lines
                  (dbWithOrder db1 (orderMixed db1 mcart cart a user n)) with
              | error e =>
                  rw [hdec] at hL2 hR2
                  rw [hL2, hR2]
                  rfl
              | ok db3 =>
                  rw [hdec] at hL2 hR2
                  rw [hL2, hR2]
                  rfl

theorem checkout_cart_withComm (db : DB) (l : List InventoryCommitment) (cart : Cart)
    (a : Nat) (user : UserRef) (n : String) :
    checkout_cart (withComm db l) cart a user n
      = (withComm (checkout_cart db cart a user n).1 l,
         (checkout_cart db cart a user n).2) := by
  unfold checkout_cart
  rw [checkoutBody_withComm]
  cases hcb : checkoutBody db cart a user n with
  | error e => rfl
  | ok r => rfl

/-- C7: InventoryCommitment rows are dead data for the storefront: replacing
the commitments table wholesale changes no cart, coupon, manager or checkout
outcome (the replaced table is only carried along), and no such operation
ever writes the commitments table. -/
theorem commitments_unused (db : DB) (l : List InventoryCommitment) :
    (∀ cart p q, add_product (withComm db l) cart p q
      = (withComm (add_product db cart p q).1 l, (add_product db cart p q).2)) ∧
    (∀ cart p q, update_quantity (withComm db l) cart p q
      = (withComm (update_quantity db cart p q).1 l, (update_quantity db cart p q).2)) ∧
    (∀ cart p, remove_product (withComm db l) cart p
      = withComm (remove_product db cart p) l) ∧
    (∀ now cart code, apply_coupon (withComm db l) now cart code
      = (withComm (apply_coupon db now cart code).1 l, (apply_coupon db now cart code).2)) ∧
    (∀ user sk, mkCartManager (withComm db l) user sk
      = (withComm (mkCartManager db user sk).1 l, (mkCartManager db user sk).2)) ∧
    (∀ cart2, totals (withComm db l) cart2 = totals db cart2) ∧
    (∀ cart a user n, checkout_cart (withComm db l) cart a user n
      = (withComm (checkout_cart db cart a user n).1 l,
         (checkout_cart db cart a user n).2)) ∧
    (∀ cart p q, (add_product db cart p q).1.commitments = db.commitments) ∧
    (∀ cart p q, (update_quantity db cart p q).1.commitments = db.commitments) ∧
    (∀ cart p, (remove_product db cart p).commitments = db.commitments) ∧
    (∀ now cart code, (apply_coupon db now cart code).1.commitments = db.commitments) ∧
    (∀ user sk, (mkCartManager db user sk).1.commitments = db.commitments) ∧
    (∀ cart a user n, (checkout_cart db cart a user n).1.commitments = db.commitments) := by
  refine ⟨fun cart p q => add_product_withComm db l cart p q,
    fun cart p q => update_quantity_withComm db l cart p q,
    fun cart p => remove_product_withComm db l cart p,
    fun now cart code => apply_coupon_withComm db l now cart code,
    fun user sk => mkCartManager_withComm db l user sk,
    fun cart2 => totals_withComm db l cart2,
    fun cart a user n => checkout_cart_withComm db l cart a user n,
    ?_, ?_, ?_, ?_, ?_, ?_⟩
  · intro cart p q
    cases hf : (cartItemsOf db cart.id).find? (fun it => it.productId == p.id) with
    | some item => simp only [add_product, hf]
    | none => simp only [add_product, hf]
  · intro cart p q
    cases hf : (cartItemsOf db cart.id).find? (fun it => it.productId == p.id) with
    | some item =>
        by_cases hq : q < 1
        · simp only [update_quantity, hf, if_pos hq]
        · simp only [update_quantity, hf, if_neg hq]
    | none => simp only [update_quantity, hf]
  · intro cart p
    rfl
  · intro now cart code
    cases hf : db.coupons.find? (couponMatches now code) with
    | some c => simp only [apply_coupon, hf, setCartCoupon]
    | none => simp only [apply_coupon, hf]
  · intro user sk
    exact (mkCartManager_frame db user sk).2.1
  · intro cart a user n
    unfold checkout_cart
    cases hcb : checkoutBody db cart a user n with
    | error e => rfl
    | ok r => exact (checkoutBody_ok_fields db cart a user n hcb).2.1

/-- C10: the Coupon table is never written by any storefront operation: in
particular `checkout_cart` consumes an attached coupon without touching its
`used_count` (or any other field), so `used_count` keeps its initial value. -/
theorem coupon_rows_never_written (db : DB) :
    (∀ cart p q, (add_product db cart p q).1.coupons = db.coupons) ∧
    (∀ cart p q, (update_quantity db cart p q).1.coupons = db.coupons) ∧
    (∀ cart p, (remove_product db cart p).coupons = db.coupons) ∧
    (∀ now cart code, (apply_coupon db now cart code).1.coupons = db.coupons) ∧
    (∀ user sk, (mkCartManager db user sk).1.coupons = db.coupons) ∧
    (∀ cart a user n, (checkout_cart db cart a user n).1.coupons = db.coupons) ∧
    (∀ cart a user n, ((checkout_cart db cart a user n).1.coupons.map Coupon.used_count)
        = db.coupons.map Coupon.used_count) := by
  have hck : ∀ cart a user n, (checkout_cart db cart a user n).1.coupons = db.coupons := by
    intro cart a user n
    unfold checkout_cart
    cases hcb : checkoutBody db cart a user n with
    | error e => rfl
    | ok r => exact (checkoutBody_ok_fields db cart a user n hcb).1
  refine ⟨?_, ?_, ?_, ?_, ?_, hck, ?_⟩
  · intro cart p q
    cases hf : (cartItemsOf db cart.id).find? (fun it => it.productId == p.id) with
    | some item => simp only [add_product, hf]
    | none => simp only [add_product, hf]
  · intro cart p q
    cases hf : (cartItemsOf db cart.id).find? (fun it => it.productId == p.id) with
    | some item =>
        by_cases hq : q < 1
        · simp only [update_quantity, hf, if_pos hq]
        · simp only [update_quantity, hf, if_neg hq]
    | none => simp only [update_quantity, hf]
  · intro cart p
    rfl
  · intro now cart code
    cases hf : db.coupons.find? (couponMatches now code) with
    | some c => simp only [apply_coupon, hf, setCartCoupon]
    | none => simp only [apply_coupon, hf]
  · intro user sk
    exact (mkCartManager_frame db user sk).2.2.1
  · intro cart a user n
    rw [hck cart a user n]

theorem orders_immutable_witness :
    isErr (checkout_cart sampleBadDB sampleCart 40 sampleUser "").2 = true ∧
    (checkout_cart sampleBadDB sampleCart 40 sampleUser "").1 = sampleBadDB := by
  have hE : isErr (checkout_cart sampleBadDB sampleCart 40 sampleUser "").2 = true := rfl
  exact ⟨hE, (orders_immutable sampleBadDB).2.2.2.2.2.1 sampleCart 40 sampleUser "" hE⟩

end Shop
